import Mathlib

/-!
Shallow embedding of the interactive annotation editor of
`src/web_masks_medical_image_labeling_app/src/components/AnnotationCanvas.tsx`:
the geometry utilities, the annotation shape data model, the bounded undo
stack and the pointer-driven tool state machine, together with proofs of the
specified properties.

Coordinates are embedded as rationals.  The source compares Euclidean
distances (`Math.hypot`) against non-negative thresholds; every such
comparison is embedded as the equivalent comparison of the squared distance
against the squared threshold (guarded by `0 ≤ threshold` where the
threshold is a variable), which keeps every definition executable.
-/

namespace WebMasks

/-- `AnnotationPoint` from `lib/types`: an x/y pair in native pixel space. -/
structure Point where
  x : ℚ
  y : ℚ
deriving DecidableEq, Repr

/-- The rectangle record `{x, y, width, height}` used for bounding boxes. -/
structure Rect where
  x : ℚ
  y : ℚ
  width : ℚ
  height : ℚ
deriving DecidableEq, Repr

/-- `AnnotationType`: `"bbox" | "polygon" | "freehand"`. -/
inductive ShapeType where
  | bbox
  | polygon
  | freehand
deriving DecidableEq, Repr

/-- `AnnotationShape` from `lib/types`.  `color`, `label`, `points` and
`bbox` are all optional fields in the source interface. -/
structure Shape where
  id : String
  type : ShapeType
  color : Option String := none
  label : Option String := none
  points : Option (List Point) := none
  bbox : Option Rect := none
deriving DecidableEq, Repr

/-- Squared Euclidean distance; `Math.hypot (b.x - a.x) (b.y - a.y)` squared. -/
def dist2 (a b : Point) : ℚ :=
  (b.x - a.x) ^ 2 + (b.y - a.y) ^ 2

/-- `MIN_BOX_SIZE = 8`. -/
def MIN_BOX_SIZE : ℚ := 8

/-- `POLYGON_CLOSE_DISTANCE = 14`. -/
def POLYGON_CLOSE_DISTANCE : ℚ := 14

/-- `FREEHAND_CLOSE_DISTANCE = 12`. -/
def FREEHAND_CLOSE_DISTANCE : ℚ := 12

/-- `MAX_UNDO_STACK = 50`. -/
def MAX_UNDO_STACK : Nat := 50

/-- The palette `COLORS`; only the first entry matters for the state
machine (it is the initial palette selection). -/
def COLORS : List String :=
  ["#ef4444", "#f97316", "#f59e0b", "#84cc16", "#10b981", "#14b8a6",
   "#06b6d4", "#3b82f6", "#6366f1", "#8b5cf6", "#a855f7", "#ec4899"]

/-- `ensureClosed(points, threshold)`: identity for fewer than two points;
otherwise compares the start/end distance with `0` and with `threshold`.
`Math.hypot dx dy = 0` is embedded as `dist2 = 0` and
`Math.hypot dx dy <= threshold` as `0 ≤ threshold ∧ dist2 ≤ threshold²`. -/
def ensureClosed (points : List Point) (threshold : ℚ) : List Point :=
  match points with
  | [] => []
  | [p] => [p]
  | p :: q :: rest =>
    let pts := p :: q :: rest
    let first := p
    let last := pts.getLast (List.cons_ne_nil _ _)
    if dist2 first last = 0 then
      pts
    else if 0 ≤ threshold ∧ dist2 first last ≤ threshold * threshold then
      pts.dropLast ++ [first]
    else
      pts ++ [first]

/-- `computeShapeBounds(shape)`: the bbox verbatim when present, otherwise
the axis-aligned bounding rectangle of the points (when nonempty),
otherwise `null`. -/
def computeShapeBounds (shape : Shape) : Option Rect :=
  match shape.bbox with
  | some b => some b
  | none =>
    match shape.points with
    | some (p :: rest) =>
      let minX := rest.foldl (fun m q => min m q.x) p.x
      let maxX := rest.foldl (fun m q => max m q.x) p.x
      let minY := rest.foldl (fun m q => min m q.y) p.y
      let maxY := rest.foldl (fun m q => max m q.y) p.y
      some { x := minX, y := minY, width := maxX - minX, height := maxY - minY }
    | _ => none

/-- `normalizeRect(start, end)`. -/
def normalizeRect (start stop : Point) : Rect :=
  { x := min start.x stop.x
    y := min start.y stop.y
    width := |stop.x - start.x|
    height := |stop.y - start.y| }

/-- `rectsIntersect(a, b)`: strict AABB overlap. -/
def rectsIntersect (a b : Rect) : Bool :=
  decide (a.x < b.x + b.width) && decide (a.x + a.width > b.x) &&
    decide (a.y < b.y + b.height) && decide (a.y + a.height > b.y)

/-- Squared version of `distancePointToSegment(point, start, stop)`:
the same projection-and-clamp computation, returning the squared distance. -/
def distSqPointToSegment (point start stop : Point) : ℚ :=
  let l2 := (stop.x - start.x) ^ 2 + (stop.y - start.y) ^ 2
  if l2 = 0 then
    dist2 start point
  else
    let t0 := ((point.x - start.x) * (stop.x - start.x) +
               (point.y - start.y) * (stop.y - start.y)) / l2
    let t := max 0 (min 1 t0)
    let proj : Point := { x := start.x + t * (stop.x - start.x),
                          y := start.y + t * (stop.y - start.y) }
    dist2 proj point

/-- `isPointNearPolyline(point, polyline, tolerance)`: some consecutive
segment is within `tolerance` (embedded via squared distances, guarded by
`0 ≤ tolerance`). -/
def isPointNearPolyline (point : Point) (polyline : List Point) (tolerance : ℚ) : Bool :=
  match polyline with
  | a :: b :: rest =>
    (decide (0 ≤ tolerance) &&
      decide (distSqPointToSegment point a b ≤ tolerance * tolerance)) ||
      isPointNearPolyline point (b :: rest) tolerance
  | _ => false

/-- The loop body of `isPointInPolygon` for the edge from `pj` to `pi`:
`yi > point.y !== yj > point.y && point.x < (xj - xi)*(point.y - yi)/(yj - yi) + xi`.
Rational division is total (`q / 0 = 0`), so this is executable as written;
`edgeCrossesChecked` below is the variant that flags a zero denominator. -/
def edgeCrosses (point pi pj : Point) : Bool :=
  (decide (pi.y > point.y) != decide (pj.y > point.y)) &&
    decide (point.x < (pj.x - pi.x) * (point.y - pi.y) / (pj.y - pi.y) + pi.x)

/-- Guarded loop body: `none` exactly when the division in the second
conjunct would be reached with a zero denominator. -/
def edgeCrossesChecked (point pi pj : Point) : Option Bool :=
  if decide (pi.y > point.y) != decide (pj.y > point.y) then
    if pj.y - pi.y = 0 then
      none
    else
      some (decide (point.x < (pj.x - pi.x) * (point.y - pi.y) / (pj.y - pi.y) + pi.x))
  else
    some false

/-- The edge list traversed by `isPointInPolygon`'s
`for (i = 0, j = n - 1; i < n; j = i++)` loop: pairs `(polygon[i], polygon[j])`
where `j` is the predecessor index (wrapping to `n-1` for `i = 0`). -/
def polygonEdges (polygon : List Point) : List (Point × Point) :=
  match polygon with
  | [] => []
  | p :: rest =>
    let poly := p :: rest
    poly.zip (poly.getLast (List.cons_ne_nil _ _) :: poly.dropLast)

/-- `isPointInPolygon(point, polygon)`: ray-casting parity over the edges. -/
def isPointInPolygon (point : Point) (polygon : List Point) : Bool :=
  (polygonEdges polygon).foldl
    (fun inside e => if edgeCrosses point e.1 e.2 then !inside else inside) false

/-- `isPointInPolygon` with every division guarded: `none` as soon as one
loop iteration would divide by zero. -/
def isPointInPolygonChecked (point : Point) (polygon : List Point) : Option Bool :=
  (polygonEdges polygon).foldl
    (fun inside e =>
      inside.bind fun b =>
        (edgeCrossesChecked point e.1 e.2).map fun c => if c then !b else b)
    (some false)

/-- The tool union type `Tool`. -/
inductive Tool where
  | bbox
  | polygon
  | freehand
  | select
  | erase
deriving DecidableEq, Repr

/-- First check of `findAnnotationAt`'s loop body:
`point.x >= x && point.x <= x + width && point.y >= y && point.y <= y + height`
when the shape has a bbox. -/
def bboxContains (point : Point) (shape : Shape) : Bool :=
  match shape.bbox with
  | some b =>
    decide (point.x ≥ b.x) && decide (point.x ≤ b.x + b.width) &&
      decide (point.y ≥ b.y) && decide (point.y ≤ b.y + b.height)
  | none => false

/-- Second check: `shape.points && shape.points.length >= 3 &&
isPointInPolygon(point, shape.points)`. -/
def polygonContains (point : Point) (shape : Shape) : Bool :=
  match shape.points with
  | some pts => decide (pts.length ≥ 3) && isPointInPolygon point pts
  | none => false

/-- Third check: `shape.type === "freehand" && shape.points &&
shape.points.length >= 2 && isPointNearPolyline(point, shape.points, 8)`. -/
def freehandNear (point : Point) (shape : Shape) : Bool :=
  shape.type == ShapeType.freehand &&
    match shape.points with
    | some pts => decide (pts.length ≥ 2) && isPointNearPolyline point pts 8
    | none => false

/-- The per-shape body of `findAnnotationAt`'s descending loop: the three
sequential membership checks, returning the first matching shape's id. -/
def findAnnotationAtGo (point : Point) : List Shape → Option String
  | [] => none
  | shape :: rest =>
    if bboxContains point shape then
      some shape.id
    else if polygonContains point shape then
      some shape.id
    else if freehandNear point shape then
      some shape.id
    else
      findAnnotationAtGo point rest

/-- `findAnnotationAt(point)`: iterate the collection from the last index
down to the first and return the first hit. -/
def findAnnotationAt (annotations : List Shape) (point : Point) : Option String :=
  findAnnotationAtGo point annotations.reverse

/-- `pushUndoSnapshot(snapshot)`: push (snapshots are plain values here, so
the source's deep clone is the identity), then `shift()` the oldest entry
when the stack exceeds `MAX_UNDO_STACK`. -/
def pushUndoSnapshot (stack : List (List Shape)) (snapshot : List Shape) :
    List (List Shape) :=
  let stack := stack ++ [snapshot]
  if stack.length > MAX_UNDO_STACK then stack.drop 1 else stack

/-- `Array.from(new Set(l))` for a list of ids: deduplicate keeping the
first occurrence of each element, preserving order. -/
def jsSetDedup : List String → List String
  | [] => []
  | a :: l => a :: (jsSetDedup l).filter (fun b => b != a)

/-- The generated id for the `n`-th committed shape.  The source draws a
fresh random identifier (`crypto.randomUUID()`); the embedding models the
generator as a deterministic supply indexed by a counter carried in the
state. -/
def generateAnnotationId (n : Nat) : String :=
  "ann-" ++ toString n

/-- The editor state: the React state hooks and refs of `AnnotationCanvas`
that the annotation logic reads and writes, plus the id-supply counter. -/
structure AppState where
  annotations : List Shape
  tool : Tool
  currentColor : String
  selectedIds : List String
  isDrawing : Bool
  startPos : Option Point
  draftShape : Option Shape
  polygonPoints : List Point
  selectionRect : Option Rect
  selectionStart : Option Point
  freehandPoints : List Point
  drawingColor : String
  undoStack : List (List Shape)
  nextId : Nat
deriving DecidableEq, Repr

/-- The initial state for an image seeded with `item.annotations`. -/
def initState (seed : List Shape) : AppState :=
  { annotations := seed
    tool := Tool.bbox
    currentColor := COLORS.headI
    selectedIds := []
    isDrawing := false
    startPos := none
    draftShape := none
    polygonPoints := []
    selectionRect := none
    selectionStart := none
    freehandPoints := []
    drawingColor := COLORS.headI
    undoStack := []
    nextId := 0 }

/-- `undoLastAnnotationChange`: pop the most recent snapshot; no-op when the
stack is empty, otherwise replace the collection and clear the selection. -/
def undoLastAnnotationChange (s : AppState) : AppState :=
  match s.undoStack.getLast? with
  | none => s
  | some previous =>
    { s with annotations := previous
             selectedIds := []
             undoStack := s.undoStack.dropLast }

/-- `appendFreehandPoint(point, force)`: append unless the distance from
the previously appended point is below 2 px (`hypot ≥ 2` embedded as
`dist2 ≥ 4`), refreshing the draft shape with the pinned drawing color. -/
def appendFreehandPoint (s : AppState) (point : Point) (force : Bool) : AppState :=
  let shouldAppend :=
    match s.freehandPoints.getLast? with
    | none => true
    | some last => force || decide (dist2 last point ≥ 4)
  if shouldAppend then
    let pts := s.freehandPoints ++ [point]
    { s with freehandPoints := pts
             draftShape := some { id := "draft-freehand"
                                  type := ShapeType.freehand
                                  color := some s.drawingColor
                                  points := some pts } }
  else s

/-- `finalizeFreehand`: discard buffers below 2 points; otherwise commit a
shape with the pinned drawing color and the path closed at the 12 px
threshold, snapshotting the pre-commit collection. -/
def finalizeFreehand (s : AppState) : AppState :=
  if s.freehandPoints.length < 2 then
    { s with freehandPoints := []
             draftShape := none
             isDrawing := false
             startPos := none }
  else
    let newShape : Shape :=
      { id := generateAnnotationId s.nextId
        type := ShapeType.freehand
        color := some s.drawingColor
        points := some (ensureClosed s.freehandPoints FREEHAND_CLOSE_DISTANCE) }
    { s with undoStack := pushUndoSnapshot s.undoStack s.annotations
             annotations := s.annotations ++ [newShape]
             selectedIds := [newShape.id]
             freehandPoints := []
             draftShape := none
             isDrawing := false
             startPos := none
             nextId := s.nextId + 1 }

/-- `finalizeBoundingBox(coords)`: requires a recorded anchor and both
dimensions at least `MIN_BOX_SIZE`; commits the normalized rectangle.  The
committed color is `currentColor` — the live palette selection — exactly as
in the source (not the pinned `drawingColorRef`). -/
def finalizeBoundingBox (s : AppState) (coords : Point) : AppState :=
  match s.startPos with
  | none => s
  | some start =>
    let width := |coords.x - start.x|
    let height := |coords.y - start.y|
    if width < MIN_BOX_SIZE ∨ height < MIN_BOX_SIZE then
      s
    else
      let newShape : Shape :=
        { id := generateAnnotationId s.nextId
          type := ShapeType.bbox
          color := some s.currentColor
          bbox := some { x := min start.x coords.x
                         y := min start.y coords.y
                         width := width
                         height := height } }
      { s with undoStack := pushUndoSnapshot s.undoStack s.annotations
               annotations := s.annotations ++ [newShape]
               selectedIds := [newShape.id]
               nextId := s.nextId + 1 }

/-- `finalizePolygon(points)`: no-op below 3 vertices; otherwise commit a
shape with the pinned drawing color and the path closed at the 14 px
threshold, and clear the in-progress vertex list. -/
def finalizePolygon (s : AppState) (points : List Point) : AppState :=
  if points.length < 3 then
    s
  else
    let newShape : Shape :=
      { id := generateAnnotationId s.nextId
        type := ShapeType.polygon
        color := some s.drawingColor
        points := some (ensureClosed points POLYGON_CLOSE_DISTANCE) }
    { s with undoStack := pushUndoSnapshot s.undoStack s.annotations
             annotations := s.annotations ++ [newShape]
             selectedIds := [newShape.id]
             polygonPoints := []
             nextId := s.nextId + 1 }

/-- `handleMouseDown(coords, shiftKey)`. -/
def handleMouseDown (s : AppState) (coords : Point) (shift : Bool) : AppState :=
  match s.tool with
  | Tool.select =>
    { s with selectionStart := some coords
             isDrawing := true
             selectionRect := some { x := coords.x, y := coords.y, width := 0, height := 0 }
             selectedIds := if shift then s.selectedIds else [] }
  | Tool.erase =>
    match findAnnotationAt s.annotations coords with
    | some found =>
      { s with undoStack := pushUndoSnapshot s.undoStack s.annotations
               annotations := s.annotations.filter (fun sh => sh.id != found)
               selectedIds := s.selectedIds.filter (fun i => i != found) }
    | none => s
  | Tool.bbox =>
    { s with isDrawing := true
             drawingColor := s.currentColor
             startPos := some coords
             draftShape := some { id := "draft-bbox"
                                  type := ShapeType.bbox
                                  color := some s.currentColor
                                  bbox := some { x := coords.x, y := coords.y
                                                 width := 0, height := 0 } } }
  | Tool.freehand =>
    appendFreehandPoint
      { s with isDrawing := true, drawingColor := s.currentColor, freehandPoints := [] }
      coords true
  | Tool.polygon =>
    let s :=
      if s.polygonPoints.isEmpty then { s with drawingColor := s.currentColor } else s
    match s.polygonPoints with
    | first :: _ :: _ :: _ =>
      if dist2 first coords ≤ POLYGON_CLOSE_DISTANCE * POLYGON_CLOSE_DISTANCE then
        finalizePolygon s s.polygonPoints
      else
        { s with polygonPoints := s.polygonPoints ++ [coords] }
    | _ => { s with polygonPoints := s.polygonPoints ++ [coords] }

/-- `handleMouseMove(coords)`. -/
def handleMouseMove (s : AppState) (coords : Point) : AppState :=
  match s.tool, s.selectionStart with
  | Tool.select, some start =>
    { s with selectionRect := some (normalizeRect start coords) }
  | _, _ =>
    if !s.isDrawing then s
    else
      match s.tool, s.startPos with
      | Tool.bbox, some start =>
        { s with draftShape := some { id := "draft-bbox"
                                      type := ShapeType.bbox
                                      color := some s.drawingColor
                                      bbox := some { x := min start.x coords.x
                                                     y := min start.y coords.y
                                                     width := |coords.x - start.x|
                                                     height := |coords.y - start.y| } } }
      | Tool.freehand, _ => appendFreehandPoint s coords false
      | _, _ => s

/-- The shape/selection-rectangle match used on a select-tool pointer-up:
ids of shapes whose bounds intersect the rectangle, in collection order. -/
def selectionMatches (annotations : List Shape) (rect : Rect) : List String :=
  (annotations.filter (fun sh =>
    match computeShapeBounds sh with
    | some b => rectsIntersect rect b
    | none => false)).map Shape.id

/-- `handleMouseUp(coords, shiftKey)`. -/
def handleMouseUp (s : AppState) (coords : Point) (shift : Bool) : AppState :=
  if s.tool = Tool.select then
    let start := s.selectionStart
    let rect : Option Rect :=
      match start with
      | some st =>
        match s.selectionRect with
        | some r => some r
        | none => some (normalizeRect st coords)
      | none => none
    let s := { s with selectionStart := none, selectionRect := none, isDrawing := false }
    match start with
    | none => s
    | some _ =>
      let minDimension : ℚ := match rect with | some r => max r.width r.height | none => 0
      if rect.isNone ∨ minDimension < 5 then
        match findAnnotationAt s.annotations coords with
        | some found =>
          { s with selectedIds :=
              if shift then
                if s.selectedIds.contains found then
                  s.selectedIds.filter (fun i => i != found)
                else
                  s.selectedIds ++ [found]
              else [found] }
        | none => if shift then s else { s with selectedIds := [] }
      else
        match rect with
        | some r =>
          let hits := selectionMatches s.annotations r
          if hits.length > 0 then
            { s with selectedIds :=
                if shift then jsSetDedup (s.selectedIds ++ hits) else hits }
          else if !shift then { s with selectedIds := [] }
          else s
        | none => s
  else if !s.isDrawing then s
  else
    match s.tool with
    | Tool.bbox =>
      { finalizeBoundingBox s coords with
          isDrawing := false, startPos := none, draftShape := none }
    | Tool.freehand => finalizeFreehand (appendFreehandPoint s coords true)
    | _ => s

/-- `handleMouseLeave(coords, shiftKey)`. -/
def handleMouseLeave (s : AppState) (coords : Point) (shift : Bool) : AppState :=
  if s.tool = Tool.select ∧ s.selectionStart.isSome then
    handleMouseUp s coords shift
  else if !s.isDrawing then s
  else if s.tool = Tool.bbox then
    handleMouseUp s coords shift
  else if s.tool = Tool.freehand then
    finalizeFreehand s
  else s

/-- Switching tools (`setTool` + the `[tool]`-dependent reset effect);
React bails out when the tool is unchanged. -/
def applySetTool (s : AppState) (t : Tool) : AppState :=
  if t = s.tool then s
  else
    { s with tool := t
             isDrawing := false
             startPos := none
             draftShape := none
             polygonPoints := []
             selectionRect := none
             selectionStart := none
             freehandPoints := []
             selectedIds := if t = Tool.select then s.selectedIds else [] }

/-- The `[currentColor, isDrawing, polygonPoints.length]` effect: outside of
an active draw the pinned drawing color tracks the palette selection. -/
def colorSync (s : AppState) : AppState :=
  if !s.isDrawing && s.polygonPoints.isEmpty then
    { s with drawingColor := s.currentColor }
  else s

/-- The editor's input alphabet: pointer events on the canvas plus the
discrete commands (palette click, tool click, polygon toolbar buttons,
Ctrl/Cmd+Z, delete-selection). -/
inductive Event where
  | pointerDown (p : Point) (shift : Bool)
  | pointerMove (p : Point)
  | pointerUp (p : Point) (shift : Bool)
  | pointerLeave (p : Point) (shift : Bool)
  | setColor (c : String)
  | setTool (t : Tool)
  | finishPolygon
  | undoVertex
  | clearPolygon
  | undoCmd
  | deleteSelected
deriving DecidableEq, Repr

/-- One transition of the editor: dispatch the event to its handler, then
apply the color-sync effect. -/
def step (s : AppState) (e : Event) : AppState :=
  colorSync <|
    match e with
    | Event.pointerDown p shift => handleMouseDown s p shift
    | Event.pointerMove p => handleMouseMove s p
    | Event.pointerUp p shift => handleMouseUp s p shift
    | Event.pointerLeave p shift => handleMouseLeave s p shift
    | Event.setColor c => { s with currentColor := c }
    | Event.setTool t => applySetTool s t
    | Event.finishPolygon => finalizePolygon s s.polygonPoints
    | Event.undoVertex => { s with polygonPoints := s.polygonPoints.dropLast }
    | Event.clearPolygon => { s with polygonPoints := [] }
    | Event.undoCmd =>
      if s.tool = Tool.polygon ∧ s.polygonPoints ≠ [] then
        { s with polygonPoints := s.polygonPoints.dropLast }
      else
        undoLastAnnotationChange s
    | Event.deleteSelected =>
      if s.selectedIds.isEmpty then s
      else
        { s with undoStack := pushUndoSnapshot s.undoStack s.annotations
                 annotations := s.annotations.filter (fun sh => !s.selectedIds.contains sh.id)
                 selectedIds := [] }

/-- Run a list of events from a state. -/
def runEvents (s : AppState) (es : List Event) : AppState :=
  es.foldl step s

/-- The hit rule as the specification words it: a shape with a bbox matches
by point-in-rectangle inclusive of edges; a shape with at least 3 points by
the ray-cast point-in-polygon test; a freehand shape with at least 2 points
by point-near-polyline with tolerance 8. -/
def hitRule (point : Point) (shape : Shape) : Bool :=
  (match shape.bbox with
   | some b =>
     decide (b.x ≤ point.x ∧ point.x ≤ b.x + b.width ∧
             b.y ≤ point.y ∧ point.y ≤ b.y + b.height)
   | none => false) ||
  (match shape.points with
   | some pts => decide (3 ≤ pts.length) && isPointInPolygon point pts
   | none => false) ||
  ((shape.type == ShapeType.freehand) &&
   (match shape.points with
    | some pts => decide (2 ≤ pts.length) && isPointNearPolyline point pts 8
    | none => false))

/-- The shared commit pattern of the three finalize operations:
`setAnnotations(prev => { pushUndoSnapshot(prev); return [...prev, newShape] })`
— snapshot the pre-commit collection, then append the new shape. -/
def commitShape (s : AppState) (shape : Shape) : AppState :=
  { s with undoStack := pushUndoSnapshot s.undoStack s.annotations
           annotations := s.annotations ++ [shape] }

/-- The proper prefixes (of lengths `0 … ss.length - 1`) of a collection,
oldest first: the undo-stack contents produced by a run of commits from an
empty collection, before capacity trimming. -/
def collectionPrefixes (ss : List Shape) : List (List Shape) :=
  (List.range ss.length).map (fun k => ss.take k)

/-- The committed point-shape invariant of the data model: a polygon or
freehand shape carries a point list of length at least 2. -/
def shapeOk (sh : Shape) : Prop :=
  sh.type = ShapeType.polygon ∨ sh.type = ShapeType.freehand →
    ∃ pts, sh.points = some pts ∧ 2 ≤ pts.length

/-- Every shape of a collection satisfies the point-shape invariant. -/
def annotationsOk (l : List Shape) : Prop :=
  ∀ sh ∈ l, shapeOk sh

/-- The invariant extended to the whole editor state: the live collection
and every snapshot on the undo stack satisfy it. -/
def stateOk (s : AppState) : Prop :=
  annotationsOk s.annotations ∧ ∀ snap ∈ s.undoStack, annotationsOk snap

/-! ### Helper lemmas -/

theorem dist2_eq_zero_iff (a b : Point) : dist2 a b = 0 ↔ b = a := by
  unfold dist2
  constructor
  · intro h
    have hx : (b.x - a.x) ^ 2 = 0 := by
      nlinarith [sq_nonneg (b.x - a.x), sq_nonneg (b.y - a.y)]
    have hy : (b.y - a.y) ^ 2 = 0 := by
      nlinarith [sq_nonneg (b.x - a.x), sq_nonneg (b.y - a.y)]
    have hx0 : b.x = a.x := by
      have := pow_eq_zero_iff (two_ne_zero) |>.mp hx
      linarith
    have hy0 : b.y = a.y := by
      have := pow_eq_zero_iff (two_ne_zero) |>.mp hy
      linarith
    cases a
    cases b
    simp_all
  · intro h
    subst h
    ring

theorem ensureClosed_length (pts : List Point) (t : ℚ) :
    pts.length ≤ (ensureClosed pts t).length ∧
      (ensureClosed pts t).length ≤ pts.length + 1 := by
  match pts with
  | [] => simp [ensureClosed]
  | [p] => simp [ensureClosed]
  | p :: q :: rest =>
    simp only [ensureClosed]
    split_ifs with h1 h2
    · simp
    · simp
    · simp

/-! ### C3: `closePath` -/

/-- C3: `ensureClosed` returns inputs of length < 2 unchanged; for length
≥ 2 the result's first and last points both equal the input's first point;
and the three cases are: start/end distance zero — unchanged; distance
within the threshold — drop the last point and append the first; otherwise
— append the first point as a new closing vertex. -/
theorem closePath_first_last (pts : List Point) (t : ℚ) :
    (pts.length < 2 → ensureClosed pts t = pts) ∧
    (2 ≤ pts.length →
      (ensureClosed pts t).head? = pts.head? ∧
        (ensureClosed pts t).getLast? = pts.head?) ∧
    (∀ a rest lastp, pts = a :: rest → rest ≠ [] → pts.getLast? = some lastp →
      (dist2 a lastp = 0 → ensureClosed pts t = pts) ∧
      (dist2 a lastp ≠ 0 → 0 ≤ t → dist2 a lastp ≤ t * t →
        ensureClosed pts t = pts.dropLast ++ [a]) ∧
      (dist2 a lastp ≠ 0 → ¬(0 ≤ t ∧ dist2 a lastp ≤ t * t) →
        ensureClosed pts t = pts ++ [a])) := by
  refine ⟨?_, ?_, ?_⟩
  · intro h
    match pts with
    | [] => rfl
    | [p] => rfl
    | p :: q :: rest => simp at h; omega
  · intro h
    match pts with
    | [] => simp at h
    | [p] => simp at h
    | p :: q :: rest =>
      simp only [ensureClosed]
      split_ifs with h1 h2
      · refine ⟨rfl, ?_⟩
        have hlast := List.getLast?_eq_getLast (p :: q :: rest) (List.cons_ne_nil _ _)
        rw [hlast]
        have := (dist2_eq_zero_iff _ _).mp h1
        simp [this]
      · constructor
        · simp [List.dropLast]
        · rw [List.dropLast_cons₂, List.getLast?_concat]
          rfl
      · constructor
        · simp
        · rw [List.getLast?_concat]
          rfl
  · intro a rest lastp hpts hrest hlastp
    match hr : rest with
    | [] => exact absurd rfl hrest
    | b :: l =>
      subst hpts
      have hlast := List.getLast?_eq_getLast (a :: b :: l) (List.cons_ne_nil _ _)
      rw [hlast] at hlastp
      have hlastv : (a :: b :: l).getLast (List.cons_ne_nil _ _) = lastp :=
        Option.some_injective _ hlastp
      refine ⟨?_, ?_, ?_⟩
      · intro h0
        simp only [ensureClosed]
        rw [if_pos]
        rw [hlastv]
        exact h0
      · intro hne h0t hth
        simp only [ensureClosed]
        rw [if_neg, if_pos]
        · rw [hlastv]
          exact ⟨h0t, hth⟩
        · rw [hlastv]
          exact hne
      · intro hne hnth
        simp only [ensureClosed]
        rw [if_neg, if_neg]
        · rw [hlastv]
          exact hnth
        · rw [hlastv]
          exact hne

/-- Witness for C3 at the concrete input `[(0,0), (3,4)]`, threshold 14. -/
theorem closePath_first_last_witness :
    (ensureClosed [Point.mk 0 0, Point.mk 3 4] 14).head? = some (Point.mk 0 0) ∧
      (ensureClosed [Point.mk 0 0, Point.mk 3 4] 14).getLast? = some (Point.mk 0 0) := by
  have h := (closePath_first_last [Point.mk 0 0, Point.mk 3 4] 14).2.1 (by decide)
  simpa using h

/-! ### C7: division safety of `isPointInPolygon` -/

theorem edgeCrossesChecked_eq (p a b : Point) :
    edgeCrossesChecked p a b = some (edgeCrosses p a b) := by
  unfold edgeCrossesChecked edgeCrosses
  by_cases h1 : a.y > p.y <;> by_cases h2 : b.y > p.y
  · simp [h1, h2]
  · have hne : b.y - a.y ≠ 0 := by
      intro h
      have hba : b.y = a.y := by linarith
      apply h2
      rw [hba]
      exact h1
    simp [h1, h2, hne]
  · have hne : b.y - a.y ≠ 0 := by
      intro h
      have hba : b.y = a.y := by linarith
      apply h1
      rw [← hba]
      exact h2
    simp [h1, h2, hne]
  · simp [h1, h2]

theorem isPointInPolygonChecked_fold (point : Point) (edges : List (Point × Point))
    (b : Bool) :
    edges.foldl
        (fun inside e =>
          inside.bind fun b0 =>
            (edgeCrossesChecked point e.1 e.2).map fun c => if c then !b0 else b0)
        (some b)
      = some (edges.foldl
          (fun inside e => if edgeCrosses point e.1 e.2 then !inside else inside) b) := by
  induction edges generalizing b with
  | nil => rfl
  | cons e es ih =>
    rw [List.foldl_cons, List.foldl_cons]
    have hstep :
        (some b).bind (fun b0 =>
            (edgeCrossesChecked point e.1 e.2).map fun c => if c then !b0 else b0)
          = some (if edgeCrosses point e.1 e.2 then !b else b) := by
      rw [Option.some_bind, edgeCrossesChecked_eq]
      rfl
    rw [hstep]
    exact ih _

/-- C7: the ray-casting test never reaches its division with a zero
denominator: the run with every division guarded (`none` on a zero
denominator) always returns `some` and agrees with the unguarded run, for
every query point and every polygon, degenerate edges included. -/
theorem pointInPolygon_division_safe (point : Point) (polygon : List Point) :
    isPointInPolygonChecked point polygon = some (isPointInPolygon point polygon) := by
  unfold isPointInPolygonChecked isPointInPolygon
  exact isPointInPolygonChecked_fold point (polygonEdges polygon) false

/-! ### C10: collection-level undo clears the selection -/

/-- C10: with a non-empty history, `undoLastAnnotationChange` replaces the
collection with the popped (most recent) snapshot and empties the selection
set, whatever was selected; with an empty history it changes nothing. -/
theorem undo_replaces_collection_and_clears_selection (s : AppState) :
    (∀ prev, s.undoStack.getLast? = some prev →
      (undoLastAnnotationChange s).annotations = prev ∧
        (undoLastAnnotationChange s).selectedIds = [] ∧
        (undoLastAnnotationChange s).undoStack = s.undoStack.dropLast) ∧
    (s.undoStack = [] → undoLastAnnotationChange s = s) := by
  constructor
  · intro prev h
    unfold undoLastAnnotationChange
    rw [h]
    exact ⟨rfl, rfl, rfl⟩
  · intro h
    unfold undoLastAnnotationChange
    rw [h]
    rfl

/-- Witness for C10: a state with one snapshot on the stack and a non-empty
selection, and the empty-stack no-op at the initial state. -/
theorem undo_replaces_collection_and_clears_selection_witness :
    (undoLastAnnotationChange
        { initState [] with
            annotations := [{ id := "b", type := ShapeType.bbox }]
            selectedIds := ["b"]
            undoStack := [[]] }).annotations = [] ∧
      (undoLastAnnotationChange
          { initState [] with
              annotations := [{ id := "b", type := ShapeType.bbox }]
              selectedIds := ["b"]
              undoStack := [[]] }).selectedIds = [] ∧
      undoLastAnnotationChange (initState []) = initState [] := by
  have h := undo_replaces_collection_and_clears_selection
    { initState [] with
        annotations := [{ id := "b", type := ShapeType.bbox }]
        selectedIds := ["b"]
        undoStack := [[]] }
  exact ⟨(h.1 [] rfl).1, (h.1 [] rfl).2.1,
    (undo_replaces_collection_and_clears_selection (initState [])).2 rfl⟩

/-! ### C6: hit-testing order and rule -/

theorem hitRule_eq (point : Point) (shape : Shape) :
    hitRule point shape
      = (bboxContains point shape || polygonContains point shape ||
          freehandNear point shape) := by
  unfold hitRule bboxContains polygonContains freehandNear
  cases shape.bbox <;> cases shape.points <;>
    simp [Bool.decide_and, Bool.and_assoc, ge_iff_le, and_assoc]

theorem findAnnotationAtGo_eq_find (point : Point) (l : List Shape) :
    findAnnotationAtGo point l = (l.find? (hitRule point)).map Shape.id := by
  induction l with
  | nil => rfl
  | cons shape rest ih =>
    rw [findAnnotationAtGo]
    by_cases h1 : bboxContains point shape <;>
      by_cases h2 : polygonContains point shape <;>
        by_cases h3 : freehandNear point shape <;>
          simp [h1, h2, h3, ih, List.find?_cons, hitRule_eq]

/-- C6: for every collection and query point, the hit-test equals "iterate
from most-recently-added to least-recently-added and return the first
shape matching the per-shape rule" (bbox: point-in-rectangle inclusive;
≥3 points: point-in-polygon; freehand with ≥2 points: near-polyline with
tolerance 8); when no shape matches, the result is `none`. -/
theorem hit_test_order_and_rule (annotations : List Shape) (point : Point) :
    findAnnotationAt annotations point
        = (annotations.reverse.find? (hitRule point)).map Shape.id ∧
      ((∀ sh ∈ annotations, hitRule point sh = false) →
        findAnnotationAt annotations point = none) := by
  constructor
  · exact findAnnotationAtGo_eq_find point annotations.reverse
  · intro hall
    rw [findAnnotationAt, findAnnotationAtGo_eq_find]
    have : annotations.reverse.find? (hitRule point) = none := by
      rw [List.find?_eq_none]
      intro sh hsh
      simp [hall sh (List.mem_reverse.mp hsh)]
    rw [this]
    rfl

/-- Witness for C6: two overlapping bboxes — the most recently added is
returned; a point hitting neither yields `none`. -/
theorem hit_test_order_and_rule_witness :
    findAnnotationAt
        [{ id := "a", type := ShapeType.bbox,
           bbox := some { x := 0, y := 0, width := 10, height := 10 } },
         { id := "b", type := ShapeType.bbox,
           bbox := some { x := 5, y := 5, width := 10, height := 10 } }]
        (Point.mk 6 6) = some "b" ∧
      findAnnotationAt
        [{ id := "a", type := ShapeType.bbox,
           bbox := some { x := 0, y := 0, width := 10, height := 10 } }]
        (Point.mk 50 50) = none := by
  constructor
  · rw [(hit_test_order_and_rule _ _).1]
    norm_num [hitRule, isPointInPolygon, polygonEdges, List.find?]
  · refine (hit_test_order_and_rule _ _).2 ?_
    intro sh hsh
    simp only [List.mem_singleton] at hsh
    subst hsh
    norm_num [hitRule, isPointInPolygon, polygonEdges]

/-! ### C9: malformed shapes are inert -/

theorem findAnnotationAtGo_skip (point : Point) (sh : Shape)
    (hb : sh.bbox = none) (hp : sh.points = none) (l1 l2 : List Shape) :
    findAnnotationAtGo point (l1 ++ sh :: l2) = findAnnotationAtGo point (l1 ++ l2) := by
  have hmiss : bboxContains point sh = false ∧ polygonContains point sh = false ∧
      freehandNear point sh = false := by
    unfold bboxContains polygonContains freehandNear
    rw [hb, hp]
    simp
  induction l1 with
  | nil =>
    rw [List.nil_append, List.nil_append, findAnnotationAtGo]
    simp [hmiss.1, hmiss.2.1, hmiss.2.2]
  | cons a l ih =>
    rw [List.cons_append, List.cons_append, findAnnotationAtGo, findAnnotationAtGo]
    rw [ih]

/-- C9: a shape with neither `bbox` nor `points` has `bounds = none`,
matches no query point under the hit rule, its presence anywhere in the
collection never changes the hit-test result, it is never the returned id
(for collections with distinct ids), and it never appears in the
selection-rectangle match list — inert, not rejected. -/
theorem malformed_shape_inert (sh : Shape) (hb : sh.bbox = none)
    (hp : sh.points = none) :
    computeShapeBounds sh = none ∧
      (∀ point, hitRule point sh = false) ∧
      (∀ pre post point,
        findAnnotationAt (pre ++ sh :: post) point
          = findAnnotationAt (pre ++ post) point) ∧
      (∀ shapes point, sh ∈ shapes → (shapes.map Shape.id).Nodup →
        findAnnotationAt shapes point ≠ some sh.id) ∧
      (∀ pre post rect,
        selectionMatches (pre ++ sh :: post) rect
          = selectionMatches (pre ++ post) rect) := by
  have hmiss : ∀ point, hitRule point sh = false := by
    intro point
    unfold hitRule
    rw [hb, hp]
    simp
  refine ⟨?_, hmiss, ?_, ?_, ?_⟩
  · unfold computeShapeBounds
    rw [hb, hp]
  · intro pre post point
    unfold findAnnotationAt
    have : (pre ++ sh :: post).reverse = post.reverse ++ sh :: pre.reverse := by
      simp
    rw [this]
    have h2 : (pre ++ post).reverse = post.reverse ++ pre.reverse := by
      simp
    rw [h2]
    exact findAnnotationAtGo_skip point sh hb hp _ _
  · intro shapes point hmem hnodup hfind
    rw [findAnnotationAt, findAnnotationAtGo_eq_find] at hfind
    obtain ⟨sh2, hfind2, hid⟩ := Option.map_eq_some'.mp hfind
    have hsh2mem : sh2 ∈ shapes := List.mem_reverse.mp (List.mem_of_find?_eq_some hfind2)
    have hsh2hit : hitRule point sh2 = true := List.find?_some hfind2
    have : sh2 = sh := List.inj_on_of_nodup_map hnodup hsh2mem hmem hid
    rw [this, hmiss] at hsh2hit
    exact Bool.false_ne_true hsh2hit
  · intro pre post rect
    unfold selectionMatches
    have hpred : (fun s0 : Shape =>
        match computeShapeBounds s0 with
        | some b => rectsIntersect rect b
        | none => false) sh = false := by
      have hcb : computeShapeBounds sh = none := by
        unfold computeShapeBounds
        rw [hb, hp]
      simp [hcb]
    simp [List.filter_append, List.filter_cons, hpred]

/-- Witness for C9 at a concrete malformed shape. -/
theorem malformed_shape_inert_witness :
    computeShapeBounds { id := "m", type := ShapeType.polygon } = none ∧
      findAnnotationAt
          [{ id := "a", type := ShapeType.bbox,
             bbox := some { x := 0, y := 0, width := 10, height := 10 } },
           { id := "m", type := ShapeType.polygon }]
          (Point.mk 5 5)
        = findAnnotationAt
            [{ id := "a", type := ShapeType.bbox,
               bbox := some { x := 0, y := 0, width := 10, height := 10 } }]
            (Point.mk 5 5) ∧
      findAnnotationAt [{ id := "m", type := ShapeType.polygon }] (Point.mk 5 5)
        ≠ some "m" := by
  have h := malformed_shape_inert { id := "m", type := ShapeType.polygon } rfl rfl
  refine ⟨h.1, ?_, ?_⟩
  · exact h.2.2.1
      [{ id := "a", type := ShapeType.bbox,
         bbox := some { x := 0, y := 0, width := 10, height := 10 } }] [] (Point.mk 5 5)
  · exact h.2.2.2.1 [{ id := "m", type := ShapeType.polygon }] (Point.mk 5 5)
      (by simp) (by simp)

/-! ### C5: bbox minimum-size gate -/

theorem colorSync_annotations_undoStack (t : AppState) :
    (colorSync t).annotations = t.annotations ∧ (colorSync t).undoStack = t.undoStack := by
  unfold colorSync
  split_ifs <;> exact ⟨rfl, rfl⟩

/-- C5: with the bbox tool mid-draw anchored at `start`, pointer-up at `p`
commits a shape iff both |Δx| ≥ 8 and |Δy| ≥ 8; a sub-threshold drag leaves
the collection and the undo history unchanged; a commit appends the
normalized rectangle (min corners, absolute extents) and pushes one
snapshot; pointer-leave behaves exactly like pointer-up.  Concretely, a
drag from (10,10) to (12,11) creates nothing, and a drag from (10,10) to
(30,25) creates `x=10, y=10, width=20, height=15`. -/
theorem bbox_min_size_gate (s : AppState) (p start : Point) (sh : Bool)
    (htool : s.tool = Tool.bbox) (hdraw : s.isDrawing = true)
    (hstart : s.startPos = some start) :
    ((|p.x - start.x| < 8 ∨ |p.y - start.y| < 8) →
      (step s (Event.pointerUp p sh)).annotations = s.annotations ∧
        (step s (Event.pointerUp p sh)).undoStack = s.undoStack) ∧
    (8 ≤ |p.x - start.x| → 8 ≤ |p.y - start.y| →
      (step s (Event.pointerUp p sh)).annotations
          = s.annotations ++
            [{ id := generateAnnotationId s.nextId, type := ShapeType.bbox,
               color := some s.currentColor,
               bbox := some { x := min start.x p.x, y := min start.y p.y,
                              width := |p.x - start.x|, height := |p.y - start.y| } }] ∧
        (step s (Event.pointerUp p sh)).undoStack
          = pushUndoSnapshot s.undoStack s.annotations) ∧
    step s (Event.pointerLeave p sh) = step s (Event.pointerUp p sh) ∧
    (runEvents (initState []) [Event.pointerDown (Point.mk 10 10) false,
        Event.pointerUp (Point.mk 12 11) false]).annotations = [] ∧
    (runEvents (initState []) [Event.pointerDown (Point.mk 10 10) false,
        Event.pointerUp (Point.mk 12 11) false]).undoStack = [] ∧
    (runEvents (initState []) [Event.pointerDown (Point.mk 10 10) false,
        Event.pointerUp (Point.mk 30 25) false]).annotations
      = [{ id := "ann-0", type := ShapeType.bbox, color := some "#ef4444",
           bbox := some { x := 10, y := 10, width := 20, height := 15 } }] := by
  have hstep : step s (Event.pointerUp p sh)
      = colorSync { finalizeBoundingBox s p with
          isDrawing := false, startPos := none, draftShape := none } := by
    simp [step, handleMouseUp, htool, hdraw]
  refine ⟨?_, ?_, ?_, ?_, ?_, ?_⟩
  · intro hsmall
    have hfin : finalizeBoundingBox s p = s := by
      unfold finalizeBoundingBox
      rw [hstart]
      simp only [MIN_BOX_SIZE]
      rw [if_pos hsmall]
    rw [hstep, hfin]
    exact ⟨(colorSync_annotations_undoStack _).1, (colorSync_annotations_undoStack _).2⟩
  · intro hx hy
    have hfin : finalizeBoundingBox s p
        = { s with
            undoStack := pushUndoSnapshot s.undoStack s.annotations
            annotations := s.annotations ++
              [{ id := generateAnnotationId s.nextId, type := ShapeType.bbox,
                 color := some s.currentColor,
                 bbox := some { x := min start.x p.x, y := min start.y p.y,
                                width := |p.x - start.x|, height := |p.y - start.y| } }]
            selectedIds := [generateAnnotationId s.nextId]
            nextId := s.nextId + 1 } := by
      unfold finalizeBoundingBox
      rw [hstart]
      simp only [MIN_BOX_SIZE]
      rw [if_neg]
      push_neg
      exact ⟨by linarith, by linarith⟩
    rw [hstep, hfin]
    exact ⟨(colorSync_annotations_undoStack _).1, (colorSync_annotations_undoStack _).2⟩
  · simp [step, handleMouseLeave, htool, hdraw]
  · norm_num [runEvents, step, handleMouseDown, handleMouseUp, colorSync,
      finalizeBoundingBox, initState, COLORS, MIN_BOX_SIZE, pushUndoSnapshot,
      MAX_UNDO_STACK, generateAnnotationId, abs]
    decide
  · norm_num [runEvents, step, handleMouseDown, handleMouseUp, colorSync,
      finalizeBoundingBox, initState, COLORS, MIN_BOX_SIZE, pushUndoSnapshot,
      MAX_UNDO_STACK, generateAnnotationId, abs]
    decide
  · norm_num [runEvents, step, handleMouseDown, handleMouseUp, colorSync,
      finalizeBoundingBox, initState, COLORS, MIN_BOX_SIZE, pushUndoSnapshot,
      MAX_UNDO_STACK, generateAnnotationId, abs]
    decide

/-- Witness for C5: concrete sub-threshold and above-threshold drags
through the general statement. -/
theorem bbox_min_size_gate_witness :
    (step { initState [] with
        isDrawing := true, startPos := some (Point.mk 0 0) }
      (Event.pointerUp (Point.mk 3 20) false)).annotations = [] ∧
    (step { initState [] with
        isDrawing := true, startPos := some (Point.mk 0 0) }
      (Event.pointerUp (Point.mk 20 20) false)).annotations
      = [{ id := generateAnnotationId 0, type := ShapeType.bbox,
           color := some "#ef4444",
           bbox := some { x := min 0 20, y := min 0 20,
                          width := |(20 : ℚ) - 0|, height := |(20 : ℚ) - 0| } }] := by
  constructor
  · have h := (bbox_min_size_gate
      { initState [] with isDrawing := true, startPos := some (Point.mk 0 0) }
      (Point.mk 3 20) (Point.mk 0 0) false rfl rfl rfl).1 (by norm_num)
    exact h.1
  · have h := ((bbox_min_size_gate
      { initState [] with isDrawing := true, startPos := some (Point.mk 0 0) }
      (Point.mk 20 20) (Point.mk 0 0) false rfl rfl rfl).2.1 (by norm_num) (by norm_num)).1
    simpa using h

/-! ### C4: polygon close gesture -/

/-- C4: with the polygon tool, a pointer-down within 14 px of the first
vertex while at least 3 vertices are in progress finalizes the polygon —
the committed shape (fresh generated id) closes the placed vertices back to
the first one and the in-progress list is cleared; with fewer than 3
vertices a pointer-down only appends the vertex, and the explicit finish
command is a no-op. Concretely, vertices (0,0), (10,0), (10,10) followed by
a click at (2,1) commit exactly the 3 placed vertices plus the closing
repeat of (0,0). -/
theorem polygon_close_gesture (s : AppState) (p f : Point) (sh : Bool)
    (htool : s.tool = Tool.polygon) :
    (s.polygonPoints.head? = some f → 3 ≤ s.polygonPoints.length →
      dist2 f p ≤ POLYGON_CLOSE_DISTANCE * POLYGON_CLOSE_DISTANCE →
      (step s (Event.pointerDown p sh)).annotations
          = s.annotations ++
            [{ id := generateAnnotationId s.nextId, type := ShapeType.polygon,
               color := some s.drawingColor,
               points := some (ensureClosed s.polygonPoints POLYGON_CLOSE_DISTANCE) }] ∧
        (step s (Event.pointerDown p sh)).polygonPoints = [] ∧
        (step s (Event.pointerDown p sh)).selectedIds = [generateAnnotationId s.nextId]) ∧
    (s.polygonPoints.length < 3 →
      (step s (Event.pointerDown p sh)).annotations = s.annotations ∧
        (step s (Event.pointerDown p sh)).polygonPoints = s.polygonPoints ++ [p]) ∧
    (s.polygonPoints.length < 3 → (step s Event.finishPolygon).annotations = s.annotations) ∧
    (runEvents (initState []) [Event.setTool Tool.polygon,
        Event.pointerDown (Point.mk 0 0) false, Event.pointerDown (Point.mk 10 0) false,
        Event.pointerDown (Point.mk 10 10) false,
        Event.pointerDown (Point.mk 2 1) false]).annotations
      = [{ id := "ann-0", type := ShapeType.polygon, color := some "#ef4444",
           points := some [Point.mk 0 0, Point.mk 10 0, Point.mk 10 10, Point.mk 0 0] }] ∧
    (runEvents (initState []) [Event.setTool Tool.polygon,
        Event.pointerDown (Point.mk 0 0) false, Event.pointerDown (Point.mk 10 0) false,
        Event.pointerDown (Point.mk 10 10) false,
        Event.pointerDown (Point.mk 2 1) false]).polygonPoints = [] := by
  obtain ⟨ann, tl, cc, sel, isd, sp, ds, pp, sr, sst, fp, dc, us, ni⟩ := s
  simp only at htool
  subst htool
  refine ⟨?_, ?_, ?_, ?_, ?_⟩
  · intro hhead hlen hclose
    simp only at hhead hlen hclose ⊢
    match hpp : pp with
    | [] => simp at hhead
    | [a] => simp at hlen
    | [a, b] => simp at hlen
    | a :: b :: c :: rest =>
      have hf : a = f := by simpa using hhead
      rw [← hf] at hclose
      have hfin : step (AppState.mk ann Tool.polygon cc sel isd sp ds
            (a :: b :: c :: rest) sr sst fp dc us ni) (Event.pointerDown p sh)
          = colorSync (finalizePolygon (AppState.mk ann Tool.polygon cc sel isd sp ds
              (a :: b :: c :: rest) sr sst fp dc us ni) (a :: b :: c :: rest)) := by
        simp only [step, handleMouseDown, List.isEmpty_cons, Bool.false_eq_true,
          if_false]
        rw [if_pos hclose]
      rw [hfin]
      have hpoly : finalizePolygon (AppState.mk ann Tool.polygon cc sel isd sp ds
            (a :: b :: c :: rest) sr sst fp dc us ni) (a :: b :: c :: rest)
          = { annotations := ann ++
                [{ id := generateAnnotationId ni, type := ShapeType.polygon,
                   color := some dc,
                   points := some (ensureClosed (a :: b :: c :: rest)
                     POLYGON_CLOSE_DISTANCE) }]
              tool := Tool.polygon, currentColor := cc
              selectedIds := [generateAnnotationId ni]
              isDrawing := isd, startPos := sp, draftShape := ds
              polygonPoints := [], selectionRect := sr, selectionStart := sst
              freehandPoints := fp, drawingColor := dc
              undoStack := pushUndoSnapshot us ann, nextId := ni + 1 } := by
        unfold finalizePolygon
        rw [if_neg (by simp)]
      rw [hpoly]
      unfold colorSync
      split_ifs <;> exact ⟨rfl, rfl, rfl⟩
  · intro hlen
    simp only at hlen ⊢
    match hpp : pp with
    | [] =>
      simp only [step, handleMouseDown, List.isEmpty_nil, if_true]
      unfold colorSync
      split_ifs <;> exact ⟨rfl, rfl⟩
    | [a] =>
      simp only [step, handleMouseDown, List.isEmpty_cons, Bool.false_eq_true, if_false]
      unfold colorSync
      split_ifs <;> exact ⟨rfl, rfl⟩
    | [a, b] =>
      simp only [step, handleMouseDown, List.isEmpty_cons, Bool.false_eq_true, if_false]
      unfold colorSync
      split_ifs <;> exact ⟨rfl, rfl⟩
    | a :: b :: c :: rest => simp at hlen; omega
  · intro hlen
    simp only at hlen ⊢
    have hstep : step (AppState.mk ann Tool.polygon cc sel isd sp ds pp sr sst fp dc
          us ni) Event.finishPolygon
        = colorSync (finalizePolygon (AppState.mk ann Tool.polygon cc sel isd sp ds pp
            sr sst fp dc us ni) pp) := by
      simp only [step]
    rw [hstep]
    unfold finalizePolygon
    rw [if_pos hlen]
    exact (colorSync_annotations_undoStack _).1
  · simp [runEvents, step, handleMouseDown, applySetTool, colorSync,
      finalizePolygon, ensureClosed, dist2, initState, COLORS,
      POLYGON_CLOSE_DISTANCE, pushUndoSnapshot, MAX_UNDO_STACK,
      generateAnnotationId]
    norm_num
    decide
  · simp [runEvents, step, handleMouseDown, applySetTool, colorSync,
      finalizePolygon, ensureClosed, dist2, initState, COLORS,
      POLYGON_CLOSE_DISTANCE, pushUndoSnapshot, MAX_UNDO_STACK,
      generateAnnotationId]
    norm_num

/-- Witness for C4: the close gesture applied at a concrete state with
three placed vertices. -/
theorem polygon_close_gesture_witness :
    (step { initState [] with
        tool := Tool.polygon
        polygonPoints := [Point.mk 0 0, Point.mk 10 0, Point.mk 10 10] }
      (Event.pointerDown (Point.mk 2 1) false)).polygonPoints = [] ∧
    (step { initState [] with
        tool := Tool.polygon
        polygonPoints := [Point.mk 0 0, Point.mk 10 0, Point.mk 10 10] }
      (Event.pointerDown (Point.mk 2 1) false)).annotations
      = [{ id := generateAnnotationId 0, type := ShapeType.polygon,
           color := some "#ef4444",
           points := some (ensureClosed [Point.mk 0 0, Point.mk 10 0, Point.mk 10 10]
             POLYGON_CLOSE_DISTANCE) }] := by
  have h := (polygon_close_gesture
    { initState [] with
        tool := Tool.polygon
        polygonPoints := [Point.mk 0 0, Point.mk 10 0, Point.mk 10 10] }
    (Point.mk 2 1) (Point.mk 0 0) false rfl).1 rfl (by norm_num)
    (by norm_num [dist2, POLYGON_CLOSE_DISTANCE])
  refine ⟨h.2.1, ?_⟩
  rw [h.1]
  rfl

/-! ### C1: color pinning -/

/-- Counterexample to C1 as stated: two bbox runs that differ only in a
palette change made between pointer-down and pointer-up commit shapes with
different colors — `finalizeBoundingBox` reads the live `currentColor`, not
the color pinned at the anchor (which remains the original color, as the
third conjunct shows). -/
theorem color_pinning_counterexample :
    (runEvents (initState []) [Event.pointerDown (Point.mk 0 0) false,
        Event.pointerUp (Point.mk 20 20) false]).annotations.map Shape.color
      = [some "#ef4444"] ∧
    (runEvents (initState []) [Event.pointerDown (Point.mk 0 0) false,
        Event.setColor "#3b82f6",
        Event.pointerUp (Point.mk 20 20) false]).annotations.map Shape.color
      = [some "#3b82f6"] ∧
    (runEvents (initState []) [Event.pointerDown (Point.mk 0 0) false,
        Event.setColor "#3b82f6"]).drawingColor = "#ef4444" ∧
    ("#ef4444" : String) ≠ "#3b82f6" := by
  refine ⟨?_, ?_, ?_, by decide⟩ <;>
    · simp [runEvents, step, handleMouseDown, handleMouseUp, colorSync,
        finalizeBoundingBox, initState, COLORS, MIN_BOX_SIZE, pushUndoSnapshot,
        MAX_UNDO_STACK, generateAnnotationId, abs]
      try norm_num
      try decide

/-- C1 as amended: the pinned drawing color is what polygon and freehand
finalizes assign, and a palette change during an active draw (`isDrawing`
or an in-progress polygon) changes nothing but the palette selection, so
those two tools are insensitive to mid-draw palette changes; bbox
finalization deviates and assigns the palette color live at pointer-up.
The last conjunct replays the two-run experiment for freehand: a mid-draw
palette change leaves the committed shapes identical. -/
theorem color_pinning_amended (s : AppState) (c : String) (p : Point) (sh : Bool) :
    ((s.isDrawing = true ∨ s.polygonPoints ≠ []) →
      step s (Event.setColor c) = { s with currentColor := c }) ∧
    (s.tool = Tool.freehand →
      (step s (Event.pointerDown p sh)).drawingColor = s.currentColor) ∧
    (s.tool = Tool.polygon → s.polygonPoints = [] →
      (step s (Event.pointerDown p sh)).drawingColor = s.currentColor) ∧
    (2 ≤ s.freehandPoints.length →
      (finalizeFreehand s).annotations = s.annotations ++
        [{ id := generateAnnotationId s.nextId, type := ShapeType.freehand,
           color := some s.drawingColor,
           points := some (ensureClosed s.freehandPoints FREEHAND_CLOSE_DISTANCE) }]) ∧
    (∀ pts : List Point, 3 ≤ pts.length →
      (finalizePolygon s pts).annotations = s.annotations ++
        [{ id := generateAnnotationId s.nextId, type := ShapeType.polygon,
           color := some s.drawingColor,
           points := some (ensureClosed pts POLYGON_CLOSE_DISTANCE) }]) ∧
    (∀ start : Point, s.startPos = some start →
      8 ≤ |p.x - start.x| → 8 ≤ |p.y - start.y| →
      (finalizeBoundingBox s p).annotations = s.annotations ++
        [{ id := generateAnnotationId s.nextId, type := ShapeType.bbox,
           color := some s.currentColor,
           bbox := some { x := min start.x p.x, y := min start.y p.y,
                          width := |p.x - start.x|, height := |p.y - start.y| } }]) ∧
    (runEvents (initState []) [Event.setTool Tool.freehand,
        Event.pointerDown (Point.mk 0 0) false, Event.pointerMove (Point.mk 30 0),
        Event.pointerUp (Point.mk 30 30) false]).annotations
      = (runEvents (initState []) [Event.setTool Tool.freehand,
          Event.pointerDown (Point.mk 0 0) false, Event.setColor "#3b82f6",
          Event.pointerMove (Point.mk 30 0),
          Event.pointerUp (Point.mk 30 30) false]).annotations := by
  refine ⟨?_, ?_, ?_, ?_, ?_, ?_, ?_⟩
  · intro h
    have hcond : (!({ s with currentColor := c } : AppState).isDrawing &&
        ({ s with currentColor := c } : AppState).polygonPoints.isEmpty) = false := by
      rcases h with h | h
      · simp [h]
      · simp [List.isEmpty_iff, h]
    simp only [step, colorSync, hcond]
    rfl
  · intro htool
    obtain ⟨ann, tl, cc, sel, isd, sp, ds, pp, sr, sst, fp, dc, us, ni⟩ := s
    simp only at htool
    subst htool
    simp [step, handleMouseDown, appendFreehandPoint, colorSync]
  · intro htool hpp
    obtain ⟨ann, tl, cc, sel, isd, sp, ds, pp, sr, sst, fp, dc, us, ni⟩ := s
    simp only at htool hpp
    subst htool
    subst hpp
    simp [step, handleMouseDown, colorSync]
  · intro hlen
    unfold finalizeFreehand
    rw [if_neg (by omega)]
  · intro pts hlen
    unfold finalizePolygon
    rw [if_neg (by omega)]
  · intro start hstart hx hy
    unfold finalizeBoundingBox
    rw [hstart]
    simp only [MIN_BOX_SIZE]
    rw [if_neg]
    push_neg
    exact ⟨by linarith, by linarith⟩
  · simp [runEvents, step, applySetTool, handleMouseDown, handleMouseMove,
      handleMouseUp, appendFreehandPoint, finalizeFreehand, colorSync,
      ensureClosed, dist2, initState, COLORS, FREEHAND_CLOSE_DISTANCE,
      pushUndoSnapshot, MAX_UNDO_STACK, generateAnnotationId]
    norm_num
    decide

/-- Witness for the amended C1 at concrete states. -/
theorem color_pinning_amended_witness :
    step { initState [] with isDrawing := true } (Event.setColor "#10b981")
        = { { initState [] with isDrawing := true } with currentColor := "#10b981" } ∧
      (finalizeFreehand
          { initState [] with
              freehandPoints := [Point.mk 0 0, Point.mk 9 0] }).annotations
        = [{ id := generateAnnotationId 0, type := ShapeType.freehand,
             color := some "#ef4444",
             points := some (ensureClosed [Point.mk 0 0, Point.mk 9 0]
               FREEHAND_CLOSE_DISTANCE) }] := by
  constructor
  · exact (color_pinning_amended { initState [] with isDrawing := true }
      "#10b981" (Point.mk 0 0) false).1 (Or.inl rfl)
  · have h := (color_pinning_amended
      { initState [] with freehandPoints := [Point.mk 0 0, Point.mk 9 0] }
      "#10b981" (Point.mk 0 0) false).2.2.2.1 (by norm_num)
    simpa using h

/-! ### C2: bounded undo stack with FIFO eviction -/

theorem foldl_commitShape_annotations (ss : List Shape) (s : AppState) :
    (ss.foldl commitShape s).annotations = s.annotations ++ ss := by
  induction ss generalizing s with
  | nil => simp
  | cons sh rest ih =>
    rw [List.foldl_cons, ih]
    simp [commitShape]

theorem collectionPrefixes_append (ss : List Shape) (sh : Shape) :
    collectionPrefixes (ss ++ [sh]) = collectionPrefixes ss ++ [ss] := by
  unfold collectionPrefixes
  rw [List.length_append, List.length_singleton, List.range_succ, List.map_append]
  congr 1
  · apply List.map_congr_left
    intro k hk
    rw [List.mem_range] at hk
    exact List.take_append_of_le_length (by omega)
  · simp [List.take_left]

theorem collectionPrefixes_length (ss : List Shape) :
    (collectionPrefixes ss).length = ss.length := by
  simp [collectionPrefixes]

theorem foldl_commitShape_undoStack (ss : List Shape) (s : AppState)
    (h0a : s.annotations = []) (h0s : s.undoStack = []) :
    (ss.foldl commitShape s).undoStack
      = (collectionPrefixes ss).drop (ss.length - MAX_UNDO_STACK) := by
  induction ss using List.reverseRecOn with
  | nil => simp [collectionPrefixes, h0s]
  | append_singleton ss sh ih =>
    rw [List.foldl_append, List.foldl_cons, List.foldl_nil]
    have hann : (ss.foldl commitShape s).annotations = ss := by
      rw [foldl_commitShape_annotations, h0a, List.nil_append]
    have hstack := ih
    have hlenst : ((collectionPrefixes ss).drop
        (ss.length - MAX_UNDO_STACK)).length
        = ss.length - (ss.length - MAX_UNDO_STACK) := by
      rw [List.length_drop, collectionPrefixes_length]
    have hM : MAX_UNDO_STACK = 50 := rfl
    show (commitShape (ss.foldl commitShape s) sh).undoStack = _
    rw [commitShape]
    simp only
    rw [hann, hstack, collectionPrefixes_append, List.length_append,
      List.length_singleton]
    unfold pushUndoSnapshot
    by_cases hle : ss.length < MAX_UNDO_STACK
    · rw [if_neg]
      · have h1 : ss.length - MAX_UNDO_STACK = 0 := by omega
        have h2 : ss.length + 1 - MAX_UNDO_STACK = 0 := by omega
        rw [h1, h2]
        simp
      · rw [List.length_append, hlenst, List.length_singleton]
        omega
    · rw [if_pos]
      · have h50 : ss.length - MAX_UNDO_STACK + 1 = ss.length + 1 - MAX_UNDO_STACK := by
          omega
        rw [List.drop_append_of_le_length (by rw [hlenst]; omega),
          List.drop_drop, h50,
          List.drop_append_of_le_length (by rw [collectionPrefixes_length]; omega)]
      · rw [List.length_append, hlenst, List.length_singleton]
        omega

theorem undo_iterate_drain (st : List (List Shape)) (s : AppState)
    (h : s.undoStack = st) :
    (undoLastAnnotationChange^[st.length] s).undoStack = [] ∧
      (undoLastAnnotationChange^[st.length] s).annotations
        = st.headD s.annotations := by
  induction st using List.reverseRecOn generalizing s with
  | nil => exact ⟨h, rfl⟩
  | append_singleton ts t ih =>
    have hpop : undoLastAnnotationChange s
        = { s with annotations := t, selectedIds := [], undoStack := ts } := by
      unfold undoLastAnnotationChange
      rw [h, List.getLast?_concat]
      simp [List.dropLast_concat]
    have hlen : (ts ++ [t]).length = ts.length + 1 := by simp
    rw [hlen, Function.iterate_succ_apply, hpop]
    have := ih { s with annotations := t, selectedIds := [], undoStack := ts } rfl
    refine ⟨this.1, ?_⟩
    rw [this.2]
    cases ts <;> simp

/-- C2: `pushUndoSnapshot` at capacity (50 entries) appends the new
snapshot and discards the oldest entry; consequently, folding 51 single-
shape commits from an empty collection with empty history and then applying
the collection-level undo 51 times leaves exactly 1 shape and an empty
stack — the empty-collection snapshot was evicted, and the 51st undo finds
an empty stack. -/
theorem undo_stack_bounded_fifo (ss : List Shape) (st : List (List Shape))
    (c : List Shape) (s : AppState)
    (hlen : ss.length = 51) (hst : st.length = MAX_UNDO_STACK)
    (h0a : s.annotations = []) (h0s : s.undoStack = []) :
    pushUndoSnapshot st c = st.drop 1 ++ [c] ∧
      (undoLastAnnotationChange^[51] (ss.foldl commitShape s)).annotations.length
        = 1 ∧
      (undoLastAnnotationChange^[51] (ss.foldl commitShape s)).undoStack = [] := by
  refine ⟨?_, ?_⟩
  · unfold pushUndoSnapshot
    rw [if_pos]
    · exact List.drop_append_of_le_length (by rw [hst]; decide)
    · rw [List.length_append, hst, List.length_singleton]
      omega
  · have hM : MAX_UNDO_STACK = 50 := rfl
    have hempty : ∀ y : AppState, y.undoStack = [] → undoLastAnnotationChange y = y := by
      intro y hy
      unfold undoLastAnnotationChange
      rw [hy]
      rfl
    have hstack := foldl_commitShape_undoStack ss s h0a h0s
    rw [hlen] at hstack
    have hdlen : ((collectionPrefixes ss).drop (51 - MAX_UNDO_STACK)).length = 50 := by
      rw [List.length_drop, collectionPrefixes_length, hlen, hM]
    have h51 : (51 : Nat) = 1 + 50 := by norm_num
    rw [h51, Function.iterate_add_apply]
    have hdrain := undo_iterate_drain
      ((collectionPrefixes ss).drop (51 - MAX_UNDO_STACK))
      (ss.foldl commitShape s) hstack
    rw [hdlen] at hdrain
    have hhead : ((collectionPrefixes ss).drop
        (51 - MAX_UNDO_STACK)).headD (ss.foldl commitShape s).annotations
        = ss.take 1 := by
      rw [List.headD_eq_head?, List.head?_drop]
      have hONE : (collectionPrefixes ss)[51 - MAX_UNDO_STACK]? = some (ss.take 1) := by
        unfold collectionPrefixes
        rw [List.getElem?_map, List.getElem?_range (by rw [hlen, hM]; omega)]
        rw [hM]
        rfl
      rw [hONE]
      rfl
    rw [Function.iterate_one, hempty _ hdrain.1]
    refine ⟨?_, hdrain.1⟩
    rw [hdrain.2, hhead]
    rw [List.length_take, hlen]
    omega

/-- Witness for C2: 51 identical one-shape commits from the empty initial
state, and a concrete full stack. -/
theorem undo_stack_bounded_fifo_witness :
    (undoLastAnnotationChange^[51]
        ((List.replicate 51 ({ id := "s", type := ShapeType.bbox } : Shape)).foldl
          commitShape (initState []))).annotations.length = 1 ∧
      pushUndoSnapshot (List.replicate 50 ([] : List Shape)) []
        = (List.replicate 50 ([] : List Shape)).drop 1 ++ [[]] := by
  have h := undo_stack_bounded_fifo
    (List.replicate 51 ({ id := "s", type := ShapeType.bbox } : Shape))
    (List.replicate 50 ([] : List Shape)) [] (initState [])
    (by simp) (by simp [MAX_UNDO_STACK]) rfl rfl
  exact ⟨h.2.1, h.1⟩

/-! ### C8: the committed point-shape invariant is preserved -/

theorem stateOk_of_eq (s s' : AppState) (h : stateOk s)
    (ha : s'.annotations = s.annotations) (hu : s'.undoStack = s.undoStack) :
    stateOk s' := by
  unfold stateOk
  rw [ha, hu]
  exact h

theorem pushUndoSnapshot_mem (st : List (List Shape)) (c x : List Shape)
    (h : x ∈ pushUndoSnapshot st c) : x ∈ st ∨ x = c := by
  unfold pushUndoSnapshot at h
  dsimp only at h
  split_ifs at h with h1
  · have := List.mem_of_mem_drop h
    rcases List.mem_append.mp this with h2 | h2
    · exact Or.inl h2
    · exact Or.inr (List.mem_singleton.mp h2)
  · rcases List.mem_append.mp h with h2 | h2
    · exact Or.inl h2
    · exact Or.inr (List.mem_singleton.mp h2)

theorem stateOk_commit (s s' : AppState) (h : stateOk s) (sh : Shape)
    (hsh : shapeOk sh)
    (ha : s'.annotations = s.annotations ++ [sh])
    (hu : s'.undoStack = pushUndoSnapshot s.undoStack s.annotations) :
    stateOk s' := by
  constructor
  · intro x hx
    rw [ha] at hx
    rcases List.mem_append.mp hx with h2 | h2
    · exact h.1 x h2
    · rw [List.mem_singleton.mp h2]
      exact hsh
  · intro snap hsnap
    rw [hu] at hsnap
    rcases pushUndoSnapshot_mem _ _ _ hsnap with h2 | h2
    · exact h.2 snap h2
    · rw [h2]
      exact h.1

theorem annotationsOk_filter (l : List Shape) (p : Shape → Bool)
    (h : annotationsOk l) : annotationsOk (l.filter p) := by
  intro sh hsh
  exact h sh (List.mem_of_mem_filter hsh)

theorem appendFreehandPoint_fields (s : AppState) (p : Point) (force : Bool) :
    (appendFreehandPoint s p force).annotations = s.annotations ∧
      (appendFreehandPoint s p force).undoStack = s.undoStack ∧
      (appendFreehandPoint s p force).nextId = s.nextId ∧
      (appendFreehandPoint s p force).drawingColor = s.drawingColor := by
  unfold appendFreehandPoint
  dsimp only
  split_ifs <;> exact ⟨rfl, rfl, rfl, rfl⟩

theorem finalizeFreehand_stateOk (s : AppState) (h : stateOk s) :
    stateOk (finalizeFreehand s) := by
  unfold finalizeFreehand
  split_ifs with hlt
  · exact stateOk_of_eq s _ h rfl rfl
  · refine stateOk_commit s _ h _ ?_ rfl rfl
    intro _
    refine ⟨ensureClosed s.freehandPoints FREEHAND_CLOSE_DISTANCE, rfl, ?_⟩
    have := (ensureClosed_length s.freehandPoints FREEHAND_CLOSE_DISTANCE).1
    omega

theorem finalizePolygon_stateOk (s : AppState) (pts : List Point) (h : stateOk s) :
    stateOk (finalizePolygon s pts) := by
  unfold finalizePolygon
  split_ifs with hlt
  · exact stateOk_of_eq s _ h rfl rfl
  · refine stateOk_commit s _ h _ ?_ rfl rfl
    intro _
    refine ⟨ensureClosed pts POLYGON_CLOSE_DISTANCE, rfl, ?_⟩
    have := (ensureClosed_length pts POLYGON_CLOSE_DISTANCE).1
    omega

theorem finalizeBoundingBox_stateOk (s : AppState) (coords : Point)
    (h : stateOk s) : stateOk (finalizeBoundingBox s coords) := by
  unfold finalizeBoundingBox
  split
  · exact h
  · dsimp only
    split_ifs with hsmall
    · exact h
    · refine stateOk_commit s _ h _ ?_ rfl rfl
      intro hcon
      rcases hcon with hcon | hcon <;> simp at hcon

theorem undoLastAnnotationChange_stateOk (s : AppState) (h : stateOk s) :
    stateOk (undoLastAnnotationChange s) := by
  unfold undoLastAnnotationChange
  split
  · exact h
  · next prev heq =>
    constructor
    · exact h.2 prev (List.mem_of_mem_getLast? heq)
    · intro snap hsnap
      exact h.2 snap (List.mem_of_mem_dropLast hsnap)

theorem handleMouseDown_stateOk (s : AppState) (p : Point) (sh : Bool)
    (h : stateOk s) : stateOk (handleMouseDown s p sh) := by
  unfold handleMouseDown
  split
  · exact stateOk_of_eq s _ h rfl rfl
  · split
    · next found heq =>
      refine ⟨annotationsOk_filter _ _ h.1, ?_⟩
      intro snap hsnap
      rcases pushUndoSnapshot_mem _ _ _ hsnap with h2 | h2
      · exact h.2 snap h2
      · rw [h2]
        exact h.1
    · exact h
  · exact stateOk_of_eq s _ h rfl rfl
  · refine stateOk_of_eq _ _ h ?_ ?_ <;>
      simp [(appendFreehandPoint_fields _ _ _).1,
        (appendFreehandPoint_fields _ _ _).2.1]
  · dsimp only
    by_cases hemp : s.polygonPoints.isEmpty
    · rw [if_pos hemp, List.isEmpty_iff.mp hemp]
      exact stateOk_of_eq _ _ h rfl rfl
    · rw [if_neg hemp]
      split
      · split_ifs
        · exact finalizePolygon_stateOk _ _ h
        · exact stateOk_of_eq _ _ h rfl rfl
      · exact stateOk_of_eq _ _ h rfl rfl

theorem handleMouseMove_stateOk (s : AppState) (p : Point) (h : stateOk s) :
    stateOk (handleMouseMove s p) := by
  unfold handleMouseMove
  split
  · exact stateOk_of_eq s _ h rfl rfl
  · split_ifs
    · exact h
    · split
      · exact stateOk_of_eq s _ h rfl rfl
      · refine stateOk_of_eq _ _ h ?_ ?_ <;>
          simp [(appendFreehandPoint_fields _ _ _).1,
            (appendFreehandPoint_fields _ _ _).2.1]
      · exact h

theorem handleMouseUp_stateOk (s : AppState) (p : Point) (shift : Bool)
    (h : stateOk s) : stateOk (handleMouseUp s p shift) := by
  unfold handleMouseUp
  by_cases hsel : s.tool = Tool.select
  · rw [if_pos hsel]
    dsimp only
    cases hss : s.selectionStart with
    | none => exact stateOk_of_eq _ _ h rfl rfl
    | some st =>
      split_ifs <;> repeat' split
      all_goals exact stateOk_of_eq _ _ h rfl rfl
  · rw [if_neg hsel]
    cases hd : s.isDrawing with
    | false =>
      simp only [hd, Bool.not_false, if_true]
      exact h
    | true =>
      simp only [hd, Bool.not_true, Bool.false_eq_true, if_false]
      split
      · exact stateOk_of_eq _ _ (finalizeBoundingBox_stateOk s p h) rfl rfl
      · exact finalizeFreehand_stateOk _ (stateOk_of_eq _ _ h
          (appendFreehandPoint_fields _ _ _).1 (appendFreehandPoint_fields _ _ _).2.1)
      all_goals exact h

theorem handleMouseLeave_stateOk (s : AppState) (p : Point) (shift : Bool)
    (h : stateOk s) : stateOk (handleMouseLeave s p shift) := by
  unfold handleMouseLeave
  split_ifs with h1 h2 h3 h4
  · exact handleMouseUp_stateOk s p shift h
  · exact h
  · exact handleMouseUp_stateOk s p shift h
  · exact finalizeFreehand_stateOk s h
  · exact h

theorem step_stateOk (s : AppState) (e : Event) (h : stateOk s) :
    stateOk (step s e) := by
  have hsync : ∀ t : AppState, stateOk t → stateOk (colorSync t) := by
    intro t ht
    unfold colorSync
    split_ifs <;> [exact stateOk_of_eq t _ ht rfl rfl; exact ht]
  cases e with
  | pointerDown p shift => exact hsync _ (handleMouseDown_stateOk s p shift h)
  | pointerMove p => exact hsync _ (handleMouseMove_stateOk s p h)
  | pointerUp p shift => exact hsync _ (handleMouseUp_stateOk s p shift h)
  | pointerLeave p shift => exact hsync _ (handleMouseLeave_stateOk s p shift h)
  | setColor c => exact hsync _ (stateOk_of_eq s _ h rfl rfl)
  | setTool t =>
    rw [show step s (Event.setTool t) = colorSync (applySetTool s t) from rfl]
    refine hsync _ ?_
    unfold applySetTool
    split_ifs <;> exact stateOk_of_eq s _ h rfl rfl
  | finishPolygon => exact hsync _ (finalizePolygon_stateOk s s.polygonPoints h)
  | undoVertex => exact hsync _ (stateOk_of_eq s _ h rfl rfl)
  | clearPolygon => exact hsync _ (stateOk_of_eq s _ h rfl rfl)
  | undoCmd =>
    rw [show step s Event.undoCmd = colorSync (if s.tool = Tool.polygon ∧ s.polygonPoints ≠ []
      then { s with polygonPoints := s.polygonPoints.dropLast }
      else undoLastAnnotationChange s) from rfl]
    refine hsync _ ?_
    split_ifs
    · exact stateOk_of_eq s _ h rfl rfl
    · exact undoLastAnnotationChange_stateOk s h
  | deleteSelected =>
    rw [show step s Event.deleteSelected = colorSync (if s.selectedIds.isEmpty then s
      else { s with undoStack := pushUndoSnapshot s.undoStack s.annotations
                    annotations := s.annotations.filter (fun sh => !s.selectedIds.contains sh.id)
                    selectedIds := [] }) from rfl]
    refine hsync _ ?_
    split_ifs
    · exact h
    · refine ⟨annotationsOk_filter _ _ h.1, ?_⟩
      intro snap hsnap
      rcases pushUndoSnapshot_mem _ _ _ hsnap with h2 | h2
      · exact h.2 snap h2
      · rw [h2]
        exact h.1

/-- C8: `ensureClosed` never shortens a path (it grows it by at most one
point), and — starting from any state whose collection and undo snapshots
satisfy the committed point-shape invariant (in particular the empty
editor) — after any sequence of events every polygon or freehand shape in
the collection still has at least 2 points. -/
theorem committed_point_shape_invariant :
    (∀ (pts : List Point) (t : ℚ),
      pts.length ≤ (ensureClosed pts t).length ∧
        (ensureClosed pts t).length ≤ pts.length + 1) ∧
    (∀ (s : AppState) (es : List Event), stateOk s →
      ∀ sh ∈ (runEvents s es).annotations, shapeOk sh) := by
  refine ⟨ensureClosed_length, ?_⟩
  intro s es h
  suffices hrun : stateOk (runEvents s es) from hrun.1
  unfold runEvents
  induction es generalizing s with
  | nil => exact h
  | cons e rest ih => exact ih (step s e) (step_stateOk s e h)

/-- Witness for C8: the invariant evaluated after a concrete run (a bbox
draw, a freehand stroke and an undo) from the empty editor. -/
theorem committed_point_shape_invariant_witness :
    annotationsOk (runEvents (initState [])
      [Event.pointerDown (Point.mk 0 0) false,
       Event.pointerUp (Point.mk 20 20) false,
       Event.setTool Tool.freehand,
       Event.pointerDown (Point.mk 0 0) false,
       Event.pointerUp (Point.mk 30 30) false,
       Event.undoCmd]).annotations := by
  have h0 : stateOk (initState []) := by
    constructor
    · intro sh hsh
      simp [initState] at hsh
    · intro snap hsnap
      simp [initState] at hsnap
  intro sh hsh
  exact (committed_point_shape_invariant).2 (initState []) _ h0 sh hsh

end WebMasks
